import Mathlib

/-!
Verification of `Samples/AzureIoT-TSL2561/receive_events.py`.

The script registers an asynchronous handler `on_event(partition_context, event)`
with an Event Hubs consumer client, prints a formatted line per event, and awaits
`partition_context.update_checkpoint(event)`.  `main` builds the client from three
inlined constants and runs `client.receive(on_event=on_event)` inside
`async with client`, so the client is closed on every exit path.

We embed the script as an effect-trace semantics: a small statement language with
sequencing (which stops at the first raised exception, as Python does), fallible
primitive calls, and `with`-scoped resource blocks whose release runs on both the
normal and the exceptional path.  The event-delivery loop of the external client
library is not part of the repository; where a claim depends on it, it is
modelled from the specification (per-partition sequential dispatch, arbitrary
interleaving across partitions).
-/

namespace ReceiveEvents

/-- Modelled from the spec: an event is an opaque message payload whose
attributes of interest are its printable representation (`str`, what Python's
`str.format` interpolates) and its stream `position` (what the checkpoint of the
partition advances to).  The position is not claimed by the spec to be part of
the printable representation. -/
structure Event where
  str : String
  position : Nat
deriving DecidableEq

/-- The partition context handed to the handler: exposes the partition id of the
event's partition of origin and the checkpoint-advance operation. -/
structure PartitionContext where
  partition_id : String
deriving DecidableEq

/-- Observable side effects of the script: a `print` call with the given string,
a `partition_context.update_checkpoint(event)` call on the given partition with
the given event argument, and client acquisition/release in `main`. -/
inductive Eff where
  | printLine (line : String)
  | updateCheckpoint (pid : String) (event : Event)
  | acquireClient
  | closeClient
deriving DecidableEq

/-- Whether a call or a whole execution finished normally or raised. -/
inductive Outcome where
  | ok
  | exn
deriving DecidableEq

/-- Statement language for the embedded script: a primitive call that emits some
effects and finishes with an outcome, sequencing, and a `with`-scoped resource
block (`async with client:` in the source). -/
inductive Stmt where
  | prim (emitted : List Eff) (out : Outcome)
  | seq (a b : Stmt)
  | withR (acq rel : Eff) (body : Stmt)

/-- Execute a statement: the list of effects performed, and the outcome.
`seq` stops at the first exception (Python semantics: an uncaught exception
aborts the rest of the suite); `withR` emits the acquisition, runs the body, and
emits the release on both the normal and the exceptional path (Python
`async with` runs `__aexit__` in both cases and re-raises). -/
def exec : Stmt → List Eff × Outcome
  | .prim es o => (es, o)
  | .seq a b =>
    match exec a with
    | (t, .ok) =>
      match exec b with
      | (t2, o2) => (t ++ t2, o2)
    | (t, .exn) => (t, .exn)
  | .withR a r body =>
    match exec body with
    | (t, o) => (a :: (t ++ [r]), o)

/-- A call of an external primitive (print, update_checkpoint): if the
environment lets it succeed it emits its effect and returns normally, otherwise
it raises before the effect lands. -/
def call (e : Eff) : Outcome → Stmt
  | .ok => .prim [e] .ok
  | .exn => .prim [] .exn

/-- The environment's behaviour for one handler invocation: whether the print
call succeeds and whether the checkpoint-advance network call succeeds. -/
structure World where
  printOutcome : Outcome
  checkpointOutcome : Outcome
deriving DecidableEq

/-- The world in which both calls of the handler succeed. -/
def okWorld : World := ⟨.ok, .ok⟩

/-- The line built by
`"Received the event: \"{}\" from the partition with ID: \"{}\"".format(event, partition_context.partition_id)`
in the source: the template with the event's string representation and the
partition id interpolated. -/
def formatEventLine (event : Event) (pid : String) : String :=
  "Received the event: \"" ++ event.str ++ "\" from the partition with ID: \"" ++ pid ++ "\""

/-- The handler `on_event(partition_context, event)` of the source: print the
formatted line, then await `partition_context.update_checkpoint(event)`.  No
try/except wraps the body. -/
def on_event (w : World) (partition_context : PartitionContext) (event : Event) : Stmt :=
  .seq (call (.printLine (formatEventLine event partition_context.partition_id)) w.printOutcome)
    (call (.updateCheckpoint partition_context.partition_id event) w.checkpointOutcome)

/-- The print effects of a trace, in order. -/
def printsOf (t : List Eff) : List String :=
  t.filterMap fun e =>
    match e with
    | .printLine s => some s
    | _ => none

/-- The checkpoint-advance effects of a trace, in order: partition id and event
argument of each `update_checkpoint` call. -/
def ckptsOf (t : List Eff) : List (String × Event) :=
  t.filterMap fun e =>
    match e with
    | .updateCheckpoint p ev => some (p, ev)
    | _ => none

/-- Modelled from the spec: the client's receive loop for a single partition
(code of the external library, absent from the repository).  It delivers the
partition's events to `on_event` one at a time, in production order, awaiting
each handler invocation to completion before the next delivery. -/
def receive_loop (w : World) (pid : String) (events : List Event) : Stmt :=
  events.foldr (fun ev s => .seq (on_event w ⟨pid⟩ ev) s) (.prim [] .ok)

/-- The function `main` of the source, given the behaviour of `client.receive` (the effects
the receive loop performed and its outcome): create the client, then
`async with client: await client.receive(on_event=on_event)`.  The `async with`
block guarantees release on both exit paths. -/
def main_run (receiveBehavior : List Eff × Outcome) : List Eff × Outcome :=
  exec (.withR .acquireClient .closeClient (.prim receiveBehavior.1 receiveBehavior.2))

/-- Process exit status of `loop.run_until_complete(main())` at top level: a
normal return exits with status 0; an exception propagating out of
`run_until_complete` is unhandled and the interpreter exits with status 1. -/
def run_until_complete_exit (o : Outcome) : Nat :=
  match o with
  | .ok => 0
  | .exn => 1

/-- The startup configuration of the client. -/
structure Config where
  connection_string : String
  consumer_group : String
  eventhub_name : String
deriving DecidableEq

/-- The ambient process environment: CLI arguments, environment variables, and
readable files.  `main` has access to it but, in the source, inspects none of it. -/
structure Env where
  argv : List String
  environ : List (String × String)
  files : List (String × String)
deriving DecidableEq

/-- The configuration `main` passes to
`EventHubConsumerClient.from_connection_string(...)`: three inlined constants.
The source reads no CLI flag, no file and no environment variable, so the
result does not inspect `env`. -/
def main_config (env : Env) : Config :=
  ⟨"Endpoint=sb://hslu-sphere-eventhub.servicebus.windows.net/;SharedAccessKeyName=subscriberapp;SharedAccessKey=Ga5/QiNJxbRWigXRE3INyVt5NH2VbUBeYMCI0iOrmQU=",
    "$Default", "spherelight"⟩

/-- Proposition stating that `t` is an interleaving of `l` and `r` (each kept
in order); traces are tagged with the partition whose handler emitted each
effect. -/
inductive Interleave : List (String × Eff) → List (String × Eff) → List (String × Eff) → Prop where
  | nil : Interleave [] [] []
  | left {x : String × Eff} {l r t : List (String × Eff)} :
      Interleave l r t → Interleave (x :: l) r (x :: t)
  | right {x : String × Eff} {l r t : List (String × Eff)} :
      Interleave l r t → Interleave l (x :: r) (x :: t)

/-- Modelled from the spec: the stream of effects the client's sequential
per-partition dispatch produces for one partition, each tagged with that
partition's id. -/
def partitionStream (w : World) (pid : String) (events : List Event) : List (String × Eff) :=
  (exec (receive_loop w pid events)).1.map fun e => (pid, e)

/-- Modelled from the spec: the admissible global traces of the client for two
partitions are exactly the interleavings of the two per-partition streams —
within a partition dispatch is sequential and in order, across partitions the
handlers may be processed concurrently, so their suspension points interleave
arbitrarily. -/
def Admissible2 (w : World) (p : String) (evp : List Event) (q : String) (evq : List Event)
    (t : List (String × Eff)) : Prop :=
  Interleave (partitionStream w p evp) (partitionStream w q evq) t

/-- Sample events for concrete scenarios. -/
def evA : Event := ⟨"E1", 0⟩

/-- A second sample event, on another partition. -/
def evB : Event := ⟨"F1", 0⟩

/-- A concrete admissible two-partition trace: partition "0" scheduled first. -/
def traceFirst0 : List (String × Eff) :=
  partitionStream okWorld "0" [evA] ++ partitionStream okWorld "1" [evB]

/-- A concrete admissible two-partition trace: partition "1" scheduled first. -/
def traceFirst1 : List (String × Eff) :=
  partitionStream okWorld "1" [evB] ++ partitionStream okWorld "0" [evA]

/-- Two distinct events with the same printable representation (positions 0 and 1). -/
def evDup1 : Event := ⟨"E", 0⟩

/-- The second event sharing `evDup1`'s printable representation. -/
def evDup2 : Event := ⟨"E", 1⟩

/-- C1: when the print call succeeds, the handler performs exactly one print,
and its string is exactly the template with the event's string representation
and the partition id interpolated. -/
theorem on_event_prints_exact_template (w : World) (partition_context : PartitionContext)
    (event : Event) (h : w.printOutcome = .ok) :
    printsOf (exec (on_event w partition_context event)).1
      = ["Received the event: \"" ++ event.str ++ "\" from the partition with ID: \""
          ++ partition_context.partition_id ++ "\""] := by
  obtain ⟨po, co⟩ := w
  subst h
  cases co <;> rfl

/-- Witness for C1 at a concrete world, context and event. -/
theorem on_event_prints_exact_template_witness :
    okWorld.printOutcome = .ok ∧
    printsOf (exec (on_event okWorld ⟨"0"⟩ evA)).1
      = ["Received the event: \"" ++ evA.str ++ "\" from the partition with ID: \""
          ++ "0" ++ "\""] :=
  ⟨rfl, on_event_prints_exact_template okWorld ⟨"0"⟩ evA rfl⟩

/-- C2: when the handler invocation completes successfully, its effect trace is
exactly the print followed by the checkpoint advance: `update_checkpoint` is
invoked exactly once, and only after the print side effect. -/
theorem on_event_checkpoint_once_after_print (w : World) (partition_context : PartitionContext)
    (event : Event) (h : (exec (on_event w partition_context event)).2 = .ok) :
    (exec (on_event w partition_context event)).1
      = [.printLine (formatEventLine event partition_context.partition_id),
          .updateCheckpoint partition_context.partition_id event] ∧
    ckptsOf (exec (on_event w partition_context event)).1
      = [(partition_context.partition_id, event)] := by
  obtain ⟨po, co⟩ := w
  cases po <;> cases co <;> first
    | exact ⟨rfl, rfl⟩
    | exact absurd (show Outcome.exn = Outcome.ok from h) (by decide)

/-- Witness for C2 at a concrete world, context and event. -/
theorem on_event_checkpoint_once_after_print_witness :
    (exec (on_event okWorld ⟨"0"⟩ evA)).2 = .ok ∧
    (exec (on_event okWorld ⟨"0"⟩ evA)).1
      = [.printLine (formatEventLine evA "0"), .updateCheckpoint "0" evA] :=
  ⟨rfl, (on_event_checkpoint_once_after_print okWorld ⟨"0"⟩ evA rfl).1⟩

/-- C3: if the print raises, no checkpoint-advance call is made for the event
and the exception propagates out of `on_event` (no handler wraps the body). -/
theorem on_event_no_checkpoint_on_print_failure (w : World)
    (partition_context : PartitionContext) (event : Event) (h : w.printOutcome = .exn) :
    ckptsOf (exec (on_event w partition_context event)).1 = [] ∧
    (exec (on_event w partition_context event)).2 = .exn := by
  obtain ⟨po, co⟩ := w
  subst h
  exact ⟨rfl, rfl⟩

/-- Witness for C3 at a concrete world, context and event. -/
theorem on_event_no_checkpoint_on_print_failure_witness :
    (⟨.exn, .ok⟩ : World).printOutcome = .exn ∧
    ckptsOf (exec (on_event ⟨.exn, .ok⟩ ⟨"0"⟩ evA)).1 = [] :=
  ⟨rfl, (on_event_no_checkpoint_on_print_failure ⟨.exn, .ok⟩ ⟨"0"⟩ evA rfl).1⟩

/-- C9: every checkpoint-advance call the handler makes carries exactly the
delivered event as argument, on the delivered partition context's partition. -/
theorem on_event_checkpoint_argument_is_delivered_event (w : World)
    (partition_context : PartitionContext) (event : Event) (p : String) (e : Event)
    (h : (p, e) ∈ ckptsOf (exec (on_event w partition_context event)).1) :
    p = partition_context.partition_id ∧ e = event := by
  obtain ⟨po, co⟩ := w
  cases po <;> cases co <;>
    simp_all [on_event, call, exec, ckptsOf]

/-- Witness for C9 at a concrete world, context, event and membership. -/
theorem on_event_checkpoint_argument_is_delivered_event_witness :
    ("0", evA) ∈ ckptsOf (exec (on_event okWorld ⟨"0"⟩ evA)).1 ∧ "0" = "0" ∧ evA = evA :=
  have hmem : ("0", evA) ∈ ckptsOf (exec (on_event okWorld ⟨"0"⟩ evA)).1 := by decide
  ⟨hmem, on_event_checkpoint_argument_is_delivered_event okWorld ⟨"0"⟩ evA "0" evA hmem⟩

/-- C10 counterexample: two invocations on the same partition whose events have
equal string representations print identical lines, but do NOT request
checkpoint advance with the same event argument — the argument is the delivered
event object, and events with equal representations can differ (here in stream
position), so the claimed determinism in the string representation alone fails. -/
theorem on_event_not_determined_by_event_str :
    evDup1.str = evDup2.str ∧
    (⟨"0"⟩ : PartitionContext).partition_id = (⟨"0"⟩ : PartitionContext).partition_id ∧
    printsOf (exec (on_event okWorld ⟨"0"⟩ evDup1)).1
      = printsOf (exec (on_event okWorld ⟨"0"⟩ evDup2)).1 ∧
    ckptsOf (exec (on_event okWorld ⟨"0"⟩ evDup1)).1
      ≠ ckptsOf (exec (on_event okWorld ⟨"0"⟩ evDup2)).1 := by
  refine ⟨rfl, rfl, rfl, ?_⟩
  decide

/-- C10 (amended): two invocations whose events have equal string
representations and whose contexts have equal partition ids print identical
lines; the full effect trace is determined by the event object and the
partition id — equal events on equal partition ids give identical traces — and
the checkpoint argument is each invocation's own delivered event. -/
theorem on_event_deterministic_in_event_and_partition (w : World)
    (ctx₁ ctx₂ : PartitionContext) (ev₁ ev₂ : Event)
    (hs : ev₁.str = ev₂.str) (hp : ctx₁.partition_id = ctx₂.partition_id) :
    printsOf (exec (on_event w ctx₁ ev₁)).1 = printsOf (exec (on_event w ctx₂ ev₂)).1 ∧
    (ev₁ = ev₂ → exec (on_event w ctx₁ ev₁) = exec (on_event w ctx₂ ev₂)) := by
  constructor
  · obtain ⟨po, co⟩ := w
    cases po <;> cases co <;>
      simp [on_event, call, exec, printsOf, formatEventLine, hs, hp]
  · intro he
    subst he
    simp [on_event, hp]

/-- Witness for the amended C10 at concrete worlds, contexts and events. -/
theorem on_event_deterministic_in_event_and_partition_witness :
    evDup1.str = evDup2.str ∧
    printsOf (exec (on_event okWorld ⟨"0"⟩ evDup1)).1
      = printsOf (exec (on_event okWorld ⟨"0"⟩ evDup2)).1 :=
  ⟨rfl, (on_event_deterministic_in_event_and_partition okWorld ⟨"0"⟩ ⟨"0"⟩
    evDup1 evDup2 rfl rfl).1⟩

/-- C6: a stream of three events on partition "0", every handler invocation
succeeding, yields exactly three prints in production order — each line the
template with partition id "0" — interleaved with exactly three
checkpoint-advance calls in the same order, and the loop completes normally. -/
theorem receive_loop_three_events_in_order (e₁ e₂ e₃ : Event) :
    (exec (receive_loop okWorld "0" [e₁, e₂, e₃])).1
      = [.printLine (formatEventLine e₁ "0"), .updateCheckpoint "0" e₁,
          .printLine (formatEventLine e₂ "0"), .updateCheckpoint "0" e₂,
          .printLine (formatEventLine e₃ "0"), .updateCheckpoint "0" e₃] ∧
    printsOf (exec (receive_loop okWorld "0" [e₁, e₂, e₃])).1
      = [formatEventLine e₁ "0", formatEventLine e₂ "0", formatEventLine e₃ "0"] ∧
    ckptsOf (exec (receive_loop okWorld "0" [e₁, e₂, e₃])).1
      = [("0", e₁), ("0", e₂), ("0", e₃)] ∧
    (exec (receive_loop okWorld "0" [e₁, e₂, e₃])).2 = .ok :=
  ⟨rfl, rfl, rfl, rfl⟩

/-- C4: in every execution of `main`, the client is acquired first, every
effect of `client.receive` happens between acquisition and release, the client
is released last on both the normal and the exceptional path, and the outcome
of `receive` propagates out of `main`. -/
theorem main_scoped_client_release (receiveBehavior : List Eff × Outcome) :
    (main_run receiveBehavior).1
      = .acquireClient :: (receiveBehavior.1 ++ [.closeClient]) ∧
    (main_run receiveBehavior).1.head? = some .acquireClient ∧
    (main_run receiveBehavior).1.getLast? = some .closeClient ∧
    (main_run receiveBehavior).2 = receiveBehavior.2 := by
  obtain ⟨t, o⟩ := receiveBehavior
  refine ⟨rfl, rfl, ?_, rfl⟩
  show (Eff.acquireClient :: (t ++ [Eff.closeClient])).getLast? = some Eff.closeClient
  rw [← List.cons_append, List.getLast?_concat]

/-- C5: if `client.receive` raises a connection error before any event is
delivered (no handler effects, exceptional outcome), the program prints zero
event lines, the error propagates out of `main` and out of
`loop.run_until_complete`, and the process exits with a non-zero status. -/
theorem connection_error_means_no_prints_nonzero_exit (receiveBehavior : List Eff × Outcome)
    (hEmpty : receiveBehavior.1 = []) (hErr : receiveBehavior.2 = .exn) :
    printsOf (main_run receiveBehavior).1 = [] ∧
    (main_run receiveBehavior).2 = .exn ∧
    run_until_complete_exit (main_run receiveBehavior).2 ≠ 0 := by
  obtain ⟨t, o⟩ := receiveBehavior
  subst hEmpty
  subst hErr
  exact ⟨rfl, rfl, by decide⟩

/-- Witness for C5 at the concrete connection-error behaviour. -/
theorem connection_error_means_no_prints_nonzero_exit_witness :
    (([], Outcome.exn) : List Eff × Outcome).1 = [] ∧
    printsOf (main_run ([], Outcome.exn)).1 = [] ∧
    run_until_complete_exit (main_run ([], Outcome.exn)).2 ≠ 0 :=
  have h := connection_error_means_no_prints_nonzero_exit ([], Outcome.exn) rfl rfl
  ⟨rfl, h.1, h.2.2⟩

/-- C7: `main` constructs the client from the same fixed triple of inlined
constants in every run, no matter the CLI arguments, environment variables or
files: the hardcoded connection string, consumer group `$Default`, and event
hub name `spherelight`. -/
theorem main_config_fixed_constants (env₁ env₂ : Env) :
    main_config env₁ = main_config env₂ ∧
    main_config env₁
      = ⟨"Endpoint=sb://hslu-sphere-eventhub.servicebus.windows.net/;SharedAccessKeyName=subscriberapp;SharedAccessKey=Ga5/QiNJxbRWigXRE3INyVt5NH2VbUBeYMCI0iOrmQU=",
          "$Default", "spherelight"⟩ :=
  ⟨rfl, rfl⟩

/-- Interleaving with an empty left list is the right list. -/
theorem interleave_nil_left (r : List (String × Eff)) : Interleave [] r r := by
  induction r with
  | nil => exact .nil
  | cons x xs ih => exact .right ih

/-- Interleaving with an empty right list is the left list. -/
theorem interleave_nil_right (l : List (String × Eff)) : Interleave l [] l := by
  induction l with
  | nil => exact .nil
  | cons x xs ih => exact .left ih

/-- Running the whole left list first is an interleaving. -/
theorem interleave_append_left (l r : List (String × Eff)) : Interleave l r (l ++ r) := by
  induction l with
  | nil => simpa using interleave_nil_left r
  | cons x xs ih => exact .left ih

/-- Running the whole right list first is an interleaving. -/
theorem interleave_append_right (l r : List (String × Eff)) : Interleave l r (r ++ l) := by
  induction r with
  | nil => simpa using interleave_nil_right l
  | cons x xs ih => exact .right ih

/-- Filtering an interleaving by a predicate that holds on all of the left list
and on none of the right list recovers the left list, in order. -/
theorem interleave_filter_left (pr : String × Eff → Bool) {l r t : List (String × Eff)}
    (h : Interleave l r t) (hl : ∀ x ∈ l, pr x = true) (hr : ∀ x ∈ r, pr x = false) :
    t.filter pr = l := by
  induction h with
  | nil => rfl
  | @left x l' r' t' h ih =>
    have hx : pr x = true := hl x (List.mem_cons_self _ _)
    have ht : List.filter pr t' = l' :=
      ih (fun y hy => hl y (List.mem_cons_of_mem _ hy)) hr
    simp [List.filter_cons, hx, ht]
  | @right x l' r' t' h ih =>
    have hx : pr x = false := hr x (List.mem_cons_self _ _)
    have ht : List.filter pr t' = l' :=
      ih hl (fun y hy => hr y (List.mem_cons_of_mem _ hy))
    simp [List.filter_cons, hx, ht]

/-- C8: in every admissible two-partition trace, the effects of a partition,
taken in global order, are exactly that partition's sequential per-event
handler stream — each event's handler runs to completion, in production order,
before the partition's next event is delivered; and across partitions no order
is guaranteed: for the one-event streams on partitions "0" and "1" there are
admissible traces beginning with either partition. -/
theorem per_partition_sequential_no_cross_partition_order (w : World) (p q : String)
    (evp evq : List Event) (t : List (String × Eff)) (hne : p ≠ q)
    (h : Admissible2 w p evp q evq t) :
    t.filter (fun te => te.1 == p) = partitionStream w p evp ∧
    ∃ t₁ t₂ : List (String × Eff),
      Admissible2 okWorld "0" [evA] "1" [evB] t₁ ∧
      Admissible2 okWorld "0" [evA] "1" [evB] t₂ ∧
      t₁.head?.map Prod.fst = some "0" ∧ t₂.head?.map Prod.fst = some "1" := by
  constructor
  · refine interleave_filter_left _ h ?_ ?_
    · intro x hx
      rcases List.mem_map.mp hx with ⟨e, _, rfl⟩
      simp
    · intro x hx
      rcases List.mem_map.mp hx with ⟨e, _, rfl⟩
      simp only [beq_eq_false_iff_ne, ne_eq]
      exact fun hqp => hne hqp.symm
  · exact ⟨traceFirst0, traceFirst1,
      interleave_append_left _ _, interleave_append_right _ _, rfl, rfl⟩

/-- Witness for C8 at concrete partitions, events and an admissible trace. -/
theorem per_partition_sequential_no_cross_partition_order_witness :
    "0" ≠ "1" ∧
    traceFirst0.filter (fun te => te.1 == "0") = partitionStream okWorld "0" [evA] :=
  ⟨by decide,
    (per_partition_sequential_no_cross_partition_order okWorld "0" "1" [evA] [evB]
      traceFirst0 (by decide) (interleave_append_left _ _)).1⟩

end ReceiveEvents
